import Mathlib

/-
Verification of the readmarkable sync engine and reMarkable document-store
adapter.  The definitions below are shallow embeddings of the Python code in
resources/models/sync_state.py and resources/services/remarkable_service.py:
pure functions become Lean functions, the mutable SyncState / device state is
threaded explicitly, timestamps are integers, and the outcome of each remote
shell command is drawn from an explicit success schedule.
-/

namespace Readmarkable

/-- File synchronization status (enum FileStatus in sync_state.py). -/
inductive FileStatus where
  | unknown
  | up_to_date
  | modified_local
  | modified_remote
  | new_local
  | new_remote
  | deleted_local
  | deleted_remote
  | conflict
  | error
deriving DecidableEq, Repr

/-- Types of sync operations (enum SyncOperation in sync_state.py). -/
inductive SyncOperation where
  | upload
  | download
  | delete_local
  | delete_remote
  | convert_pdf
  | skip
deriving DecidableEq, Repr

/-- Information about a file in the sync process (dataclass FileInfo).
Modification times are modelled as integers; the checksum is optional,
as in the dataclass (None until calculated). -/
structure FileInfo where
  path : String
  size : Nat
  modified_time : Int
  checksum : Option String := none
  is_markdown : Bool := false
deriving DecidableEq, Repr

/-- A single item to be synchronized (dataclass SyncItem). -/
structure SyncItem where
  local_path : Option String := none
  remote_path : Option String := none
  local_info : Option FileInfo := none
  remote_info : Option FileInfo := none
  status : FileStatus := FileStatus.unknown
  operation : SyncOperation := SyncOperation.skip
  error_message : Option String := none
deriving DecidableEq, Repr

/-- SyncItem.needs_sync: the status is not in [UP_TO_DATE, ERROR]. -/
def SyncItem.needs_sync (it : SyncItem) : Bool :=
  decide (it.status ≠ FileStatus.up_to_date ∧ it.status ≠ FileStatus.error)

/-- Progress information for sync operations (dataclass SyncProgress).
The start_time field and the time-derived properties are not modelled. -/
structure SyncProgress where
  total_items : Nat := 0
  processed_items : Nat := 0
  current_item : Option String := none
  bytes_total : Nat := 0
  bytes_processed : Nat := 0
deriving DecidableEq, Repr

/-- SyncProgress.percentage, with Python float division modelled over ℚ. -/
def SyncProgress.percentage (p : SyncProgress) : ℚ :=
  if 0 < p.total_items then ((p.processed_items : ℚ) / (p.total_items : ℚ)) * 100
  else 0

/-- SyncProgress.bytes_percentage, with Python float division modelled over ℚ. -/
def SyncProgress.bytes_percentage (p : SyncProgress) : ℚ :=
  if 0 < p.bytes_total then ((p.bytes_processed : ℚ) / (p.bytes_total : ℚ)) * 100
  else 0

/-- SyncState._determine_sync_action: decide the (status, operation) pair from
the optional local and remote file records. -/
def determine_sync_action (local_info remote_info : Option FileInfo) :
    FileStatus × SyncOperation :=
  match local_info, remote_info with
  | some li, some ri =>
      if li.checksum = ri.checksum then
        (FileStatus.up_to_date, SyncOperation.skip)
      else if ri.modified_time < li.modified_time then
        (FileStatus.modified_local, SyncOperation.upload)
      else if li.modified_time < ri.modified_time then
        (FileStatus.modified_remote, SyncOperation.download)
      else
        (FileStatus.conflict, SyncOperation.skip)
  | some _, none => (FileStatus.new_local, SyncOperation.upload)
  | none, some _ => (FileStatus.new_remote, SyncOperation.download)
  | none, none => (FileStatus.unknown, SyncOperation.skip)

/-- C1: for every pair of optional FileRecords with at least one present, the
status/operation assigned by analyze_differences follows the decision table:
equal checksums give up-to-date/skip; differing checksums with local strictly
newer give modified-local/upload; with remote strictly newer give
modified-remote/download; with exactly equal modification times give
conflict/skip; local only gives new-local/upload; remote only gives
new-remote/download. -/
theorem c1_decision_table (li ri : FileInfo) :
    (li.checksum = ri.checksum →
      determine_sync_action (some li) (some ri) =
        (FileStatus.up_to_date, SyncOperation.skip))
  ∧ (li.checksum ≠ ri.checksum → ri.modified_time < li.modified_time →
      determine_sync_action (some li) (some ri) =
        (FileStatus.modified_local, SyncOperation.upload))
  ∧ (li.checksum ≠ ri.checksum → li.modified_time < ri.modified_time →
      determine_sync_action (some li) (some ri) =
        (FileStatus.modified_remote, SyncOperation.download))
  ∧ (li.checksum ≠ ri.checksum → li.modified_time = ri.modified_time →
      determine_sync_action (some li) (some ri) =
        (FileStatus.conflict, SyncOperation.skip))
  ∧ determine_sync_action (some li) none =
      (FileStatus.new_local, SyncOperation.upload)
  ∧ determine_sync_action none (some ri) =
      (FileStatus.new_remote, SyncOperation.download) := by
  refine ⟨?_, ?_, ?_, ?_, rfl, rfl⟩
  · intro h
    simp [determine_sync_action, h]
  · intro h h2
    simp [determine_sync_action, h, h2]
  · intro h h2
    have h3 : ¬ ri.modified_time < li.modified_time := by omega
    simp [determine_sync_action, h, h2, h3]
  · intro h h2
    simp [determine_sync_action, h, h2]

/-- Witness for C1: on concrete records with differing checksums and equal
modification times the action is conflict/skip. -/
theorem c1_decision_table_witness :
    determine_sync_action
      (some { path := "a.md", size := 3, modified_time := 7, checksum := some "x" })
      (some { path := "a.md", size := 4, modified_time := 7, checksum := some "y" }) =
      (FileStatus.conflict, SyncOperation.skip) :=
  (c1_decision_table
    { path := "a.md", size := 3, modified_time := 7, checksum := some "x" }
    { path := "a.md", size := 4, modified_time := 7, checksum := some "y" }).2.2.2.1
    (by decide) (by decide)

/-- C10: percentage and bytes_percentage are total and never divide by zero:
each returns 0 when its denominator counter is 0, and otherwise equals
processed/total times 100. -/
theorem c10_percentage_total (p : SyncProgress) :
    (p.total_items = 0 → p.percentage = 0)
  ∧ (p.total_items ≠ 0 →
      p.percentage = ((p.processed_items : ℚ) / (p.total_items : ℚ)) * 100)
  ∧ (p.bytes_total = 0 → p.bytes_percentage = 0)
  ∧ (p.bytes_total ≠ 0 →
      p.bytes_percentage = ((p.bytes_processed : ℚ) / (p.bytes_total : ℚ)) * 100) := by
  refine ⟨?_, ?_, ?_, ?_⟩ <;> intro h
  · simp [SyncProgress.percentage, h]
  · rw [SyncProgress.percentage, if_pos (Nat.pos_of_ne_zero h)]
  · simp [SyncProgress.bytes_percentage, h]
  · rw [SyncProgress.bytes_percentage, if_pos (Nat.pos_of_ne_zero h)]

/-- Witness for C10: a progress record with 1 of 4 items processed reports
25 percent, via the non-zero branch of the theorem. -/
theorem c10_percentage_total_witness :
    ({ total_items := 4, processed_items := 1 } : SyncProgress).percentage = 25 := by
  rw [(c10_percentage_total { total_items := 4, processed_items := 1 }).2.1
    (by decide)]
  norm_num

/-- Character-list test: the first list is a prefix of the second.  The
string-scanning primitives below are defined over String.data so that they
evaluate inside the kernel. -/
def prefixOf : List Char → List Char → Bool
  | [], _ => true
  | _ :: _, [] => false
  | a :: as, b :: bs => a == b && prefixOf as bs

/-- Python str.startswith. -/
def strStartsWith (s pre : String) : Bool :=
  prefixOf pre.data s.data

/-- Python str.endswith. -/
def strEndsWith (s suf : String) : Bool :=
  prefixOf suf.data.reverse s.data.reverse

/-- Python slicing s[n:]. -/
def strDrop (s : String) (n : Nat) : String :=
  String.mk (s.data.drop n)

/-- os.path.basename: the part of the path after the final slash. -/
def basename (p : String) : String :=
  String.mk ((p.data.reverse.takeWhile (fun c => !(c == '/'))).reverse)

/-- The ignore pattern set installed by SyncState.__init__. -/
def default_ignore_patterns : List String :=
  [".*", "__pycache__", "*.pyc", ".git"]

/-- SyncState.should_ignore_file: test the basename of the path against each
ignore pattern; a pattern starting with "*" is a suffix test with the rest of
the pattern, a pattern starting with "." is a starts-with test with the whole
pattern, and any other pattern must equal the basename exactly. -/
def should_ignore_file (patterns : List String) (file_path : String) : Bool :=
  let file_name := basename file_path
  patterns.any fun pattern =>
    if strStartsWith pattern "*" then strEndsWith file_name (strDrop pattern 1)
    else if strStartsWith pattern "." then strStartsWith file_name pattern
    else decide (pattern = file_name)

/-- SyncState.scan_local_directory, abstracted over the filesystem walk: from
the list of (relative path, file record) pairs that rglob would produce for
the regular files under the local directory, keep exactly the entries whose
relative path is not ignored.  (stat, checksum computation, and the silent
skipping of unreadable files are outside this model.) -/
def scan_local_directory (patterns : List String)
    (walked : List (String × FileInfo)) : List (String × FileInfo) :=
  walked.filter fun pr => !(should_ignore_file patterns pr.1)

/-- The mutable fields of class SyncState that the claims concern; the Python
dicts are insertion-ordered association lists. -/
structure SyncState where
  sync_items : List (String × SyncItem) := []
  progress : SyncProgress := {}
  local_files : List (String × FileInfo) := []
  remote_files : List (String × FileInfo) := []
deriving DecidableEq, Repr

/-- First-match association-list lookup (Python dict access). -/
def lookupItem {α : Type} : List (String × α) → String → Option α
  | [], _ => none
  | pr :: rest, k => if pr.1 = k then some pr.2 else lookupItem rest k

/-- Replace the value at the first occurrence of a key (Python dict update;
keys are unique in a real dict, so at most one binding is affected). -/
def updateFirst {α : Type} : List (String × α) → String → (α → α) → List (String × α)
  | [], _, _ => []
  | pr :: rest, k, f =>
    if pr.1 = k then (pr.1, f pr.2) :: rest else pr :: updateFirst rest k f

/-- The byte size an item contributes in analyze_differences and
mark_item_completed: local size if a local record is present, else the remote
size, else 0. -/
def item_size (it : SyncItem) : Nat :=
  match it.local_info with
  | some li => li.size
  | none =>
    match it.remote_info with
    | some ri => ri.size
    | none => 0

/-- The SyncItem that analyze_differences constructs for one relative path. -/
def mk_sync_item (relative_path : String) (l r : Option FileInfo) : SyncItem :=
  { local_path := if l.isSome then some relative_path else none,
    remote_path := if r.isSome then some relative_path else none,
    local_info := l,
    remote_info := r,
    status := (determine_sync_action l r).1,
    operation := (determine_sync_action l r).2,
    error_message := none }

/-- The union of the local and remote key sets.  Python iterates a set in an
unspecified order; local keys first and then the remote-only keys is one
deterministic realization of that order. -/
def union_paths (lf rf : List (String × FileInfo)) : List String :=
  lf.map Prod.fst ++
    (rf.map Prod.fst).filter (fun p => (lookupItem lf p).isNone)

/-- SyncState.analyze_differences: rebuild sync_items for the union of the
local and remote path sets, and recompute the progress totals over the items
whose needs_sync is true. -/
def analyze_differences (s : SyncState) : SyncState :=
  let items := (union_paths s.local_files s.remote_files).map fun p =>
    (p, mk_sync_item p (lookupItem s.local_files p) (lookupItem s.remote_files p))
  let needing := (items.map Prod.snd).filter SyncItem.needs_sync
  { s with
    sync_items := items,
    progress := { s.progress with
      total_items := needing.length,
      processed_items := 0,
      bytes_total := (needing.map item_size).sum,
      bytes_processed := 0 } }

/-- The per-item mutation performed by mark_item_completed. -/
def complete_item (success : Bool) (error_message : Option String)
    (it : SyncItem) : SyncItem :=
  if success then
    { it with status := FileStatus.up_to_date, operation := SyncOperation.skip }
  else
    { it with status := FileStatus.error, error_message := error_message }

/-- SyncState.mark_item_completed: when the path is present, mutate the item
via complete_item and, on success only, advance the processed counters by one
item and by the item's size; when the path is absent, do nothing. -/
def mark_item_completed (s : SyncState) (relative_path : String)
    (success : Bool) (error_message : Option String) : SyncState :=
  match lookupItem s.sync_items relative_path with
  | none => s
  | some it =>
    let items := updateFirst s.sync_items relative_path
      (complete_item success error_message)
    if success then
      { s with
        sync_items := items,
        progress := { s.progress with
          processed_items := s.progress.processed_items + 1,
          bytes_processed := s.progress.bytes_processed + item_size it } }
    else
      { s with sync_items := items }

/-- C3: evaluation of the ignore filter at the spec's examples.  The code
tests every pattern only against the basename of the relative path, so for
".git/config" the basename "config" matches no configured pattern and the
file is NOT excluded from the scan, contradicting the claimed exclusion;
"notes.md" is included as claimed, "x.pyc" is excluded by the suffix rule,
"__pycache__" by the exact rule, and ".gitmodules" by the leading-dot
whole-pattern prefix rule. -/
theorem c3_ignore_patterns_eval :
    should_ignore_file default_ignore_patterns ".git/config" = false
  ∧ should_ignore_file default_ignore_patterns "notes.md" = false
  ∧ should_ignore_file default_ignore_patterns "x.pyc" = true
  ∧ should_ignore_file default_ignore_patterns "__pycache__" = true
  ∧ should_ignore_file default_ignore_patterns ".gitmodules" = true
  ∧ scan_local_directory default_ignore_patterns
      [(".git/config", { path := ".git/config", size := 1, modified_time := 0 }),
       ("notes.md", { path := "notes.md", size := 2, modified_time := 0 })] =
      [(".git/config", { path := ".git/config", size := 1, modified_time := 0 }),
       ("notes.md", { path := "notes.md", size := 2, modified_time := 0 })] := by
  refine ⟨by decide, by decide, by decide, by decide, by decide, by decide⟩

/-- Looking a key up after updating its first binding sees the update. -/
theorem lookupItem_updateFirst {α : Type} (l : List (String × α)) (k : String)
    (f : α → α) :
    lookupItem (updateFirst l k f) k = (lookupItem l k).map f := by
  induction l with
  | nil => rfl
  | cons pr rest ih =>
    by_cases h : pr.1 = k
    · simp [updateFirst, lookupItem, h]
    · simp [updateFirst, lookupItem, h, ih]

/-- C6: for a path present in the plan, mark_item_completed with success sets
the item to up-to-date/skip and advances processed_items by 1 and
bytes_processed by the item's size; with failure it sets the item to error
with the given message and leaves the progress record unchanged; for a path
absent from the plan the whole state is unchanged. -/
theorem c6_mark_item_completed (s : SyncState) (p : String) (it : SyncItem)
    (msg : Option String) (h : lookupItem s.sync_items p = some it) :
    (mark_item_completed s p true msg).progress.processed_items
        = s.progress.processed_items + 1
  ∧ (mark_item_completed s p true msg).progress.bytes_processed
        = s.progress.bytes_processed + item_size it
  ∧ lookupItem (mark_item_completed s p true msg).sync_items p =
      some { it with status := FileStatus.up_to_date,
                     operation := SyncOperation.skip }
  ∧ (mark_item_completed s p false msg).progress = s.progress
  ∧ lookupItem (mark_item_completed s p false msg).sync_items p =
      some { it with status := FileStatus.error, error_message := msg }
  ∧ (∀ q b msg2, lookupItem s.sync_items q = none →
      mark_item_completed s q b msg2 = s) := by
  refine ⟨?_, ?_, ?_, ?_, ?_, ?_⟩
  · simp [mark_item_completed, h]
  · simp [mark_item_completed, h]
  · simp [mark_item_completed, h, lookupItem_updateFirst, complete_item]
  · simp [mark_item_completed, h]
  · simp [mark_item_completed, h, lookupItem_updateFirst, complete_item]
  · intro q b msg2 hq
    simp [mark_item_completed, hq]

/-- Witness for C6: on a one-item plan, a successful completion advances the
counters to 1 item and 9 bytes. -/
theorem c6_mark_item_completed_witness :
    (mark_item_completed
      { sync_items := [("a.md",
          { local_path := some "a.md",
            local_info := some { path := "a.md", size := 9, modified_time := 3 },
            status := FileStatus.new_local,
            operation := SyncOperation.upload })] }
      "a.md" true none).progress.processed_items = 1
  ∧ (mark_item_completed
      { sync_items := [("a.md",
          { local_path := some "a.md",
            local_info := some { path := "a.md", size := 9, modified_time := 3 },
            status := FileStatus.new_local,
            operation := SyncOperation.upload })] }
      "a.md" true none).progress.bytes_processed = 9 := by
  have h := c6_mark_item_completed
    { sync_items := [("a.md",
        { local_path := some "a.md",
          local_info := some { path := "a.md", size := 9, modified_time := 3 },
          status := FileStatus.new_local,
          operation := SyncOperation.upload })] }
    "a.md"
    { local_path := some "a.md",
      local_info := some { path := "a.md", size := 9, modified_time := 3 },
      status := FileStatus.new_local,
      operation := SyncOperation.upload }
    none (by decide)
  exact ⟨h.1, h.2.1⟩

/-- C4 fails as stated: analyze_differences on universes producing a single
conflict item (differing checksums, equal timestamps) reports total_items = 1
although no item in the plan has a non-skip operation. -/
theorem c4_totals_counterexample :
    (analyze_differences
      { local_files := [("a.md",
          { path := "a.md", size := 10, modified_time := 5, checksum := some "x" })],
        remote_files := [("a.md",
          { path := "a.md", size := 10, modified_time := 5, checksum := some "y" })] }
      ).progress.total_items = 1
  ∧ ((analyze_differences
      { local_files := [("a.md",
          { path := "a.md", size := 10, modified_time := 5, checksum := some "x" })],
        remote_files := [("a.md",
          { path := "a.md", size := 10, modified_time := 5, checksum := some "y" })] }
      ).sync_items.filter
        (fun pr => decide (pr.2.operation ≠ SyncOperation.skip))).length = 0 := by
  refine ⟨by decide, by decide⟩

/-- A key drawn from the key list of an association list has a binding. -/
theorem lookupItem_isSome_of_mem_keys {α : Type} (l : List (String × α))
    (p : String) (h : p ∈ l.map Prod.fst) : (lookupItem l p).isSome = true := by
  induction l with
  | nil => simp at h
  | cons pr rest ih =>
    simp only [List.map_cons, List.mem_cons] at h
    by_cases hk : pr.1 = p
    · simp [lookupItem, hk]
    · rcases h with h1 | h2
      · exact absurd h1.symm hk
      · simp only [lookupItem, if_neg hk]
        exact ih h2

/-- Every path in the union has a local or a remote record. -/
theorem mem_union_paths_some (lf rf : List (String × FileInfo)) (p : String)
    (h : p ∈ union_paths lf rf) :
    (lookupItem lf p).isSome = true ∨ (lookupItem rf p).isSome = true := by
  rcases List.mem_append.mp h with h1 | h2
  · exact Or.inl (lookupItem_isSome_of_mem_keys _ _ h1)
  · exact Or.inr (lookupItem_isSome_of_mem_keys _ _ (List.mem_of_mem_filter h2))

/-- For an item built from at least one record, needing sync is the same as
having a non-skip operation or conflict status. -/
theorem needs_sync_mk_sync_item (p : String) (l r : Option FileInfo)
    (h : l.isSome = true ∨ r.isSome = true) :
    (mk_sync_item p l r).needs_sync =
      (decide ((mk_sync_item p l r).operation ≠ SyncOperation.skip) ||
       decide ((mk_sync_item p l r).status = FileStatus.conflict)) := by
  cases l with
  | none =>
    cases r with
    | none => simp at h
    | some ri => rfl
  | some li =>
    cases r with
    | none => rfl
    | some ri =>
      simp only [mk_sync_item, SyncItem.needs_sync, determine_sync_action]
      split_ifs <;> rfl

/-- C4 amended: after analyze_differences the progress totals equal the count
and summed byte size of exactly those SyncItems whose operation is not skip
OR whose status is conflict (the items with needs_sync true); in particular
an item present on both sides with identical checksums is assigned
up-to-date/skip and contributes to neither total. -/
theorem c4_totals_amended (s : SyncState) :
    ((analyze_differences s).progress.total_items =
      (((analyze_differences s).sync_items.map Prod.snd).filter
        (fun it => decide (it.operation ≠ SyncOperation.skip) ||
                   decide (it.status = FileStatus.conflict))).length)
  ∧ ((analyze_differences s).progress.bytes_total =
      ((((analyze_differences s).sync_items.map Prod.snd).filter
        (fun it => decide (it.operation ≠ SyncOperation.skip) ||
                   decide (it.status = FileStatus.conflict))).map item_size).sum)
  ∧ (∀ p li ri, li.checksum = ri.checksum →
      (mk_sync_item p (some li) (some ri)).status = FileStatus.up_to_date ∧
      (mk_sync_item p (some li) (some ri)).operation = SyncOperation.skip ∧
      (mk_sync_item p (some li) (some ri)).needs_sync = false) := by
  have hfilter :
      (((union_paths s.local_files s.remote_files).map fun p =>
          (p, mk_sync_item p (lookupItem s.local_files p)
                (lookupItem s.remote_files p))).map Prod.snd).filter
        SyncItem.needs_sync =
      (((union_paths s.local_files s.remote_files).map fun p =>
          (p, mk_sync_item p (lookupItem s.local_files p)
                (lookupItem s.remote_files p))).map Prod.snd).filter
        (fun it => decide (it.operation ≠ SyncOperation.skip) ||
                   decide (it.status = FileStatus.conflict)) := by
    apply List.filter_congr
    intro it hit
    rw [List.map_map] at hit
    obtain ⟨p, hp, hpe⟩ := List.mem_map.mp hit
    subst hpe
    exact needs_sync_mk_sync_item p _ _ (mem_union_paths_some _ _ p hp)
  refine ⟨?_, ?_, ?_⟩
  · simp only [analyze_differences]
    rw [hfilter]
  · simp only [analyze_differences]
    rw [hfilter]
  · intro p li ri h
    refine ⟨?_, ?_, ?_⟩ <;>
      simp [mk_sync_item, determine_sync_action, SyncItem.needs_sync, h]

/-- Witness for C4 amended: a concrete pair of identical-checksum records is
assigned up-to-date/skip and does not need sync. -/
theorem c4_totals_amended_witness :
    (mk_sync_item "b.md"
        (some { path := "b.md", size := 4, modified_time := 2, checksum := some "c" })
        (some { path := "b.md", size := 4, modified_time := 9, checksum := some "c" })).status
      = FileStatus.up_to_date
  ∧ (mk_sync_item "b.md"
        (some { path := "b.md", size := 4, modified_time := 2, checksum := some "c" })
        (some { path := "b.md", size := 4, modified_time := 9, checksum := some "c" })).needs_sync
      = false := by
  have h := (c4_totals_amended {}).2.2 "b.md"
    { path := "b.md", size := 4, modified_time := 2, checksum := some "c" }
    { path := "b.md", size := 4, modified_time := 9, checksum := some "c" } rfl
  exact ⟨h.1, h.2.2⟩

/-- One mark_item_completed invocation: path, success flag, optional error
message. -/
structure MarkCall where
  path : String
  success : Bool
  message : Option String := none
deriving DecidableEq, Repr

/-- Perform one mark_item_completed call. -/
def apply_call (s : SyncState) (c : MarkCall) : SyncState :=
  mark_item_completed s c.path c.success c.message

/-- Perform a sequence of mark_item_completed calls, left to right. -/
def apply_calls : SyncState → List MarkCall → SyncState
  | s, [] => s
  | s, c :: cs => apply_calls (apply_call s c) cs

/-- The number of plan entries that still need sync. -/
def needing_count (l : List (String × SyncItem)) : Nat :=
  ((l.map Prod.snd).filter SyncItem.needs_sync).length

/-- A call sequence is disciplined from state s when every successful call
targets a path whose item still needs sync at the moment of the call. -/
inductive GoodCalls : SyncState → List MarkCall → Prop where
  | nil (s : SyncState) : GoodCalls s []
  | cons (s : SyncState) (c : MarkCall) (cs : List MarkCall)
      (hc : c.success = true → ∃ it, lookupItem s.sync_items c.path = some it ∧
        it.needs_sync = true)
      (hcs : GoodCalls (apply_call s c) cs) : GoodCalls s (c :: cs)

/-- The item rewritten by mark_item_completed never needs sync afterwards. -/
theorem complete_item_not_needing (b : Bool) (m : Option String)
    (it : SyncItem) : (complete_item b m it).needs_sync = false := by
  cases b <;> rfl

/-- Rewriting one binding to a non-needing item cannot raise the needing
count. -/
theorem needing_count_updateFirst_le (l : List (String × SyncItem))
    (k : String) (f : SyncItem → SyncItem)
    (hf : ∀ it, (f it).needs_sync = false) :
    needing_count (updateFirst l k f) ≤ needing_count l := by
  induction l with
  | nil => exact Nat.le_refl 0
  | cons pr rest ih =>
    by_cases hk : pr.1 = k
    · cases hn : pr.2.needs_sync <;>
        simp [updateFirst, hk, needing_count, List.filter_cons, hf pr.2, hn]
    · have hrec := ih
      cases hn : pr.2.needs_sync <;>
        simp [updateFirst, hk, needing_count, List.filter_cons, hn] at hrec ⊢ <;>
        omega

/-- Rewriting the binding of a needing item to a non-needing item lowers the
needing count by exactly one. -/
theorem needing_count_updateFirst_found (l : List (String × SyncItem))
    (k : String) (f : SyncItem → SyncItem) (it : SyncItem)
    (hf : ∀ it2, (f it2).needs_sync = false)
    (hl : lookupItem l k = some it) (hn : it.needs_sync = true) :
    needing_count (updateFirst l k f) + 1 = needing_count l := by
  induction l with
  | nil => simp [lookupItem] at hl
  | cons pr rest ih =>
    by_cases hk : pr.1 = k
    · have hpr : pr.2 = it := by simpa [lookupItem, hk] using hl
      simp [updateFirst, hk, needing_count, List.filter_cons, hpr, hf it, hn]
    · have hl2 : lookupItem rest k = some it := by
        simpa [lookupItem, hk] using hl
      have hrec := ih hl2
      cases hm : pr.2.needs_sync <;>
        simp [updateFirst, hk, needing_count, List.filter_cons, hm] at hrec ⊢ <;>
        omega

/-- mark_item_completed never changes total_items. -/
theorem mark_item_completed_total (s : SyncState) (p : String) (b : Bool)
    (m : Option String) :
    (mark_item_completed s p b m).progress.total_items =
      s.progress.total_items := by
  cases hl : lookupItem s.sync_items p <;> cases b <;>
    simp [mark_item_completed, hl]

/-- One disciplined call preserves processed + needing ≤ total. -/
theorem apply_call_invariant (s : SyncState) (c : MarkCall)
    (hc : c.success = true → ∃ it, lookupItem s.sync_items c.path = some it ∧
      it.needs_sync = true)
    (hinv : s.progress.processed_items + needing_count s.sync_items ≤
      s.progress.total_items) :
    (apply_call s c).progress.processed_items +
      needing_count (apply_call s c).sync_items ≤
      (apply_call s c).progress.total_items := by
  cases hl : lookupItem s.sync_items c.path with
  | none => simpa [apply_call, mark_item_completed, hl] using hinv
  | some it =>
    cases hs : c.success with
    | false =>
      have hle := needing_count_updateFirst_le s.sync_items c.path
        (complete_item false c.message)
        (fun it2 => complete_item_not_needing false c.message it2)
      simp only [apply_call, mark_item_completed, hl, hs]
      simp only [Bool.false_eq_true, if_false]
      omega
    | true =>
      obtain ⟨it2, hit2, hn2⟩ := hc hs
      rw [hl] at hit2
      have he : it = it2 := by injection hit2
      subst he
      have heq := needing_count_updateFirst_found s.sync_items c.path
        (complete_item true c.message) it
        (fun x => complete_item_not_needing true c.message x) hl hn2
      simp only [apply_call, mark_item_completed, hl, hs, if_true]
      omega

/-- The invariant processed + needing ≤ total survives any disciplined call
sequence. -/
theorem good_calls_invariant : ∀ (s : SyncState) (cs : List MarkCall),
    GoodCalls s cs →
    s.progress.processed_items + needing_count s.sync_items ≤
      s.progress.total_items →
    (apply_calls s cs).progress.processed_items +
      needing_count (apply_calls s cs).sync_items ≤
      (apply_calls s cs).progress.total_items := by
  intro s cs h
  induction h with
  | nil s => exact fun hinv => hinv
  | cons s c cs hc hcs ih =>
    intro hinv
    exact ih (apply_call_invariant s c hc hinv)

/-- C7 fails as stated: after an analyze_differences whose only item is
up-to-date (total_items = 0), one successful mark_item_completed call on that
path — a call sequence the claim quantifies over — raises processed_items to
1, which exceeds total_items. -/
theorem c7_monotonic_counterexample :
    (mark_item_completed (analyze_differences
      { local_files := [("a.md",
          { path := "a.md", size := 3, modified_time := 1, checksum := some "s" })],
        remote_files := [("a.md",
          { path := "a.md", size := 3, modified_time := 1, checksum := some "s" })] })
      "a.md" true none).progress.total_items <
    (mark_item_completed (analyze_differences
      { local_files := [("a.md",
          { path := "a.md", size := 3, modified_time := 1, checksum := some "s" })],
        remote_files := [("a.md",
          { path := "a.md", size := 3, modified_time := 1, checksum := some "s" })] })
      "a.md" true none).progress.processed_items := by
  decide

/-- C7 amended: from a fresh analyze_differences, along any sequence of
mark_item_completed calls in which every successful call targets a path whose
item still needs sync at the moment of the call, processed_items never
exceeds total_items; and processed_items increases only through successful
calls — a failure call leaves it unchanged in any state. -/
theorem c7_progress_monotonic_amended (s0 : SyncState) (cs : List MarkCall)
    (h : GoodCalls (analyze_differences s0) cs) :
    (apply_calls (analyze_differences s0) cs).progress.processed_items ≤
      (apply_calls (analyze_differences s0) cs).progress.total_items
  ∧ (∀ (s : SyncState) (c : MarkCall), c.success = false →
      (apply_call s c).progress.processed_items =
        s.progress.processed_items) := by
  constructor
  · have hinv0 : (analyze_differences s0).progress.processed_items +
        needing_count (analyze_differences s0).sync_items ≤
        (analyze_differences s0).progress.total_items := by
      simp [analyze_differences, needing_count]
    have hfin := good_calls_invariant _ _ h hinv0
    omega
  · intro s c hs
    cases hl : lookupItem s.sync_items c.path <;>
      simp [apply_call, mark_item_completed, hl, hs]

/-- Witness for C7 amended: one successful call on the single needing item of
a fresh plan keeps processed_items within total_items. -/
theorem c7_progress_monotonic_amended_witness :
    (apply_calls (analyze_differences
      { local_files := [("n.md",
          { path := "n.md", size := 5, modified_time := 2, checksum := some "h" })] })
      [{ path := "n.md", success := true }]).progress.processed_items ≤
    (apply_calls (analyze_differences
      { local_files := [("n.md",
          { path := "n.md", size := 5, modified_time := 2, checksum := some "h" })] })
      [{ path := "n.md", success := true }]).progress.total_items := by
  refine (c7_progress_monotonic_amended _ _ ?_).1
  refine GoodCalls.cons _ _ _ (fun _ => ?_) (GoodCalls.nil _)
  exact ⟨mk_sync_item "n.md"
    (some { path := "n.md", size := 5, modified_time := 2, checksum := some "h" })
    none, by decide, by decide⟩

/-
Device model for remarkable_service.py.  A document UUID owns up to three
sibling files in the xochitl data directory; every remote shell command /
SFTP transfer drawn by the adapter consumes one position of an explicit
success schedule.  UUIDs are modelled as a fresh-counter.
-/

/-- Lowercase a character list (str.lower / grep -i). -/
def lowerChars (cs : List Char) : List Char :=
  cs.map Char.toLower

/-- Python str.lower. -/
def lowerStr (s : String) : String :=
  String.mk (lowerChars s.data)

/-- Decidable infix test on character lists. -/
def infixOf (needle : List Char) : List Char → Bool
  | [] => needle.isEmpty
  | b :: bs => prefixOf needle (b :: bs) || infixOf needle bs

/-- Python str.strip whitespace class (the common ASCII whitespace). -/
def isPySpace (c : Char) : Bool :=
  c == ' ' || c == '\t' || c == '\n' || c == '\r' || c == '\x0b' || c == '\x0c'

/-- Python str.strip. -/
def strTrim (s : String) : String :=
  String.mk (((s.data.dropWhile isPySpace).reverse.dropWhile isPySpace).reverse)

/-- The JSON object written to a .metadata file; its keys are "parent",
"type" (field docType here) and "visibleName". -/
structure Metadata where
  parent : String
  docType : String
  visibleName : String
deriving DecidableEq, Repr

/-- The state of one document's .metadata file: missing, present but not
parseable as JSON, or a parsed record. -/
inductive MetaFile where
  | absent
  | garbage (raw : String)
  | valid (m : Metadata)
deriving DecidableEq, Repr

/-- The artifacts sharing one UUID: the content file uuid.ext, the
uuid.metadata file, and the uuid.content file (holding the fileType tag). -/
structure DeviceDoc where
  uuid : Nat
  ext : String
  has_data : Bool
  meta : MetaFile
  content : Option String
deriving DecidableEq, Repr

/-- The reMarkable device as the adapter sees it: documents in listing
order, the next fresh UUID, and the cursor into the success schedule. -/
structure Device where
  docs : List DeviceDoc := []
  next_uuid : Nat := 0
  op_index : Nat := 0
deriving DecidableEq, Repr

/-- Draw the outcome of the next remote operation from the schedule. -/
def step (sched : Nat → Bool) (d : Device) : Bool × Device :=
  (sched d.op_index, { d with op_index := d.op_index + 1 })

/-- json.dumps of a metadata record (its insertion order: parent, type,
visibleName). -/
def metaChars (m : Metadata) : List Char :=
  "\x7b\"parent\": \"".data ++ m.parent.data ++
  "\", \"type\": \"".data ++ m.docType.data ++
  "\", \"visibleName\": \"".data ++ m.visibleName.data ++ "\"\x7d".data

/-- grep -l -i title over one metadata file: the file exists and its text
contains the title case-insensitively. -/
def meta_matches (title : String) (mf : MetaFile) : Bool :=
  match mf with
  | MetaFile.absent => false
  | MetaFile.garbage raw => infixOf (lowerChars title.data) (lowerChars raw.data)
  | MetaFile.valid m => infixOf (lowerChars title.data) (lowerChars (metaChars m))

/-- The metadata file stored for a UUID (absent when no document owns it). -/
def meta_of (d : Device) (u : Nat) : MetaFile :=
  match d.docs.find? (fun doc => doc.uuid == u) with
  | some doc => doc.meta
  | none => MetaFile.absent

/-- ReMarkableService.hash_from_title: empty or whitespace-only titles fail
fast before any remote command; otherwise run the grep command over the
metadata files in listing order and return the UUID of the first matching
file (additional matches are only logged), none when the command fails or
nothing matches. -/
def hash_from_title (sched : Nat → Bool) (title : String) (d : Device) :
    Option Nat × Device :=
  if strTrim title = "" then (none, d)
  else
    let r := step sched d
    if r.1 then
      match r.2.docs.find? (fun doc => meta_matches title doc.meta) with
      | some doc => (some doc.uuid, r.2)
      | none => (none, r.2)
    else (none, r.2)

/-- The body shared by add_pdf_with_metadata and add_epub_with_metadata after
the local-file checks: generate a fresh UUID, upload the content file, write
the .metadata file, write the .content file — abandoning the operation at the
first failing step while keeping the artifacts already written — and finally
restart xochitl, whose failure is only a warning. -/
def create_document (sched : Nat → Bool) (ext : String) (title : String)
    (d : Device) : Option Nat × Device :=
  let u := d.next_uuid
  let d0 : Device := { d with next_uuid := d.next_uuid + 1 }
  let s1 := step sched d0
  if s1.1 = false then (none, s1.2)
  else
    let s2 := step sched s1.2
    if s2.1 = false then
      (none, { s2.2 with docs := s2.2.docs ++
        [{ uuid := u, ext := ext, has_data := true, meta := MetaFile.absent,
           content := none }] })
    else
      let s3 := step sched s2.2
      if s3.1 = false then
        (none, { s3.2 with docs := s3.2.docs ++
          [{ uuid := u, ext := ext, has_data := true,
             meta := MetaFile.valid
               { parent := "", docType := "DocumentType", visibleName := title },
             content := none }] })
      else
        let s4 := step sched s3.2
        (some u, { s4.2 with docs := s4.2.docs ++
          [{ uuid := u, ext := ext, has_data := true,
             meta := MetaFile.valid
               { parent := "", docType := "DocumentType", visibleName := title },
             content := some ext }] })

/-- The local file facts the adapter checks before creating a document. -/
structure LocalFile where
  present : Bool
  suffix : String
  stem : String
deriving DecidableEq, Repr

/-- ReMarkableService.add_pdf_with_metadata: reject a missing or non-PDF
file, then run the shared creation workflow with title defaulting to the
file stem. -/
def add_pdf_with_metadata (sched : Nat → Bool) (f : LocalFile)
    (title : Option String) (d : Device) : Option Nat × Device :=
  if f.present = false then (none, d)
  else if lowerStr f.suffix ≠ ".pdf" then (none, d)
  else create_document sched "pdf" (title.getD f.stem) d

/-- ReMarkableService.add_epub_with_metadata: the EPUB twin. -/
def add_epub_with_metadata (sched : Nat → Bool) (f : LocalFile)
    (title : Option String) (d : Device) : Option Nat × Device :=
  if f.present = false then (none, d)
  else if lowerStr f.suffix ≠ ".epub" then (none, d)
  else create_document sched "epub" (title.getD f.stem) d

/-- ReMarkableService.add_with_metadata_if_new: look the title up first and
return the existing UUID when found; otherwise create by file type. -/
def add_with_metadata_if_new (sched : Nat → Bool) (f : LocalFile)
    (title : Option String) (d : Device) : Option Nat × Device :=
  let t := title.getD f.stem
  let r := hash_from_title sched t d
  match r.1 with
  | some u => (some u, r.2)
  | none =>
    if lowerStr f.suffix = ".pdf" then add_pdf_with_metadata sched f (some t) r.2
    else if lowerStr f.suffix = ".epub" then
      add_epub_with_metadata sched f (some t) r.2
    else (none, r.2)

/-- ReMarkableService.rename_document: fail on blank titles; read the
metadata file (absent file = failed read) and JSON-parse it (garbage =
failed parse), failing without writing in either case; otherwise write back
the record with only visibleName replaced by the stripped new title, and
restart xochitl (whose failure is only a warning). -/
def rename_document (sched : Nat → Bool) (u : Nat) (new_title : String)
    (d : Device) : Bool × Device :=
  if strTrim new_title = "" then (false, d)
  else
    let s1 := step sched d
    if s1.1 = false then (false, s1.2)
    else
      match meta_of s1.2 u with
      | MetaFile.absent => (false, s1.2)
      | MetaFile.garbage _ => (false, s1.2)
      | MetaFile.valid m =>
        let s2 := step sched s1.2
        if s2.1 = false then (false, s2.2)
        else
          let s3 := step sched s2.2
          (true, { s3.2 with docs := s3.2.docs.map (fun doc =>
            if doc.uuid == u then
              { doc with
                meta := MetaFile.valid { m with visibleName := strTrim new_title } }
            else doc) })

/-- An empty needle is an infix of everything. -/
theorem infixOf_nil_needle (l : List Char) : infixOf [] l = true := by
  cases l <;> simp [infixOf, prefixOf]

/-- Every list is a prefix of itself extended. -/
theorem prefixOf_self_append (n y : List Char) : prefixOf n (n ++ y) = true := by
  induction n with
  | nil => rfl
  | cons a as ih => simp [prefixOf, ih]

/-- A prefix stays a prefix when the haystack is extended on the right. -/
theorem prefixOf_append (n z y : List Char) (h : prefixOf n z = true) :
    prefixOf n (z ++ y) = true := by
  induction n generalizing z with
  | nil => rfl
  | cons a as ih =>
    cases z with
    | nil => simp [prefixOf] at h
    | cons b bs =>
      simp only [prefixOf, Bool.and_eq_true] at h
      simp only [List.cons_append, prefixOf, Bool.and_eq_true]
      exact ⟨h.1, ih bs h.2⟩

/-- An infix stays an infix when the haystack is extended on the right. -/
theorem infixOf_append_right (n z y : List Char) (h : infixOf n z = true) :
    infixOf n (z ++ y) = true := by
  induction z with
  | nil =>
    have hn : n = [] := by simpa [infixOf, List.isEmpty_iff] using h
    subst hn
    exact infixOf_nil_needle y
  | cons b bs ih =>
    simp only [infixOf, Bool.or_eq_true] at h
    rw [List.cons_append]
    simp only [infixOf, Bool.or_eq_true]
    rcases h with h1 | h2
    · exact Or.inl (prefixOf_append n (b :: bs) y h1)
    · exact Or.inr (ih h2)

/-- An infix stays an infix when the haystack is extended on the left. -/
theorem infixOf_append_left (n x z : List Char) (h : infixOf n z = true) :
    infixOf n (x ++ z) = true := by
  induction x with
  | nil => simpa using h
  | cons b bs ih =>
    rw [List.cons_append]
    simp only [infixOf, Bool.or_eq_true]
    exact Or.inr ih

/-- A list is an infix of itself. -/
theorem infixOf_self (n : List Char) : infixOf n n = true := by
  cases n with
  | nil => rfl
  | cons a as =>
    simp only [infixOf, Bool.or_eq_true]
    exact Or.inl (by simpa using prefixOf_self_append (a :: as) [])

/-- The title is always found, case-insensitively, inside the metadata record
the creation workflow writes for it. -/
theorem meta_matches_created (t : String) :
    meta_matches t (MetaFile.valid
      { parent := "", docType := "DocumentType", visibleName := t }) = true := by
  simp only [meta_matches, metaChars, lowerChars, List.map_append]
  apply infixOf_append_right
  apply infixOf_append_left
  exact infixOf_self _

/-- C8: add_pdf_with_metadata / add_epub_with_metadata delegate to the shared
creation workflow, which returns a UUID exactly when the content upload and
both companion metadata writes succeed (a failed xochitl restart is only a
warning), and on any failing step returns none while leaving every artifact
already written by the earlier steps on the device — no cleanup. -/
theorem c8_create_no_cleanup (sched : Nat → Bool) (f : LocalFile)
    (t : String) (d : Device) (ext : String) :
    (f.present = true → lowerStr f.suffix = ".pdf" →
      add_pdf_with_metadata sched f (some t) d = create_document sched "pdf" t d)
  ∧ (f.present = true → lowerStr f.suffix = ".epub" →
      add_epub_with_metadata sched f (some t) d = create_document sched "epub" t d)
  ∧ ((create_document sched ext t d).1.isSome =
      (sched d.op_index && sched (d.op_index + 1) && sched (d.op_index + 2)))
  ∧ (sched d.op_index = false →
      (create_document sched ext t d).2.docs = d.docs)
  ∧ (sched d.op_index = true → sched (d.op_index + 1) = false →
      (create_document sched ext t d).2.docs = d.docs ++
        [{ uuid := d.next_uuid, ext := ext, has_data := true,
           meta := MetaFile.absent, content := none }])
  ∧ (sched d.op_index = true → sched (d.op_index + 1) = true →
      sched (d.op_index + 2) = false →
      (create_document sched ext t d).2.docs = d.docs ++
        [{ uuid := d.next_uuid, ext := ext, has_data := true,
           meta := MetaFile.valid
             { parent := "", docType := "DocumentType", visibleName := t },
           content := none }]) := by
  refine ⟨?_, ?_, ?_, ?_, ?_, ?_⟩
  · intro h1 h2
    simp [add_pdf_with_metadata, h1, h2]
  · intro h1 h2
    simp [add_epub_with_metadata, h1, h2]
  · cases h0 : sched d.op_index <;> cases h1 : sched (d.op_index + 1) <;>
      cases h2 : sched (d.op_index + 2) <;>
      simp [create_document, step, h0, h1, h2]
  · intro h0
    simp [create_document, step, h0]
  · intro h0 h1
    simp [create_document, step, h0, h1]
  · intro h0 h1 h2
    simp [create_document, step, h0, h1, h2]

/-- Witness for C8: under a schedule where only the upload succeeds, the
create returns no UUID and the orphaned content file stays on the device. -/
theorem c8_create_no_cleanup_witness :
    ((create_document (fun n => decide (n = 0)) "pdf" "Report" {}).1.isSome = false)
  ∧ ((create_document (fun n => decide (n = 0)) "pdf" "Report" {}).2.docs =
      [{ uuid := 0, ext := "pdf", has_data := true, meta := MetaFile.absent,
         content := none }]) := by
  have h := c8_create_no_cleanup (fun n => decide (n = 0))
    { present := true, suffix := ".pdf", stem := "r" } "Report" {} "pdf"
  constructor
  · exact h.2.2.1.trans (by decide)
  · exact (h.2.2.2.2.1 (by decide) (by decide)).trans (by decide)

/-- The spec's description of find_by_title, stated for comparison with
hash_from_title: a case-insensitive substring search over the stored document
TITLES only, first match in listing order, not-found on blank input. -/
def find_by_title_spec (title : String) (docs : List DeviceDoc) : Option Nat :=
  if strTrim title = "" then none
  else (docs.find? (fun doc =>
    match doc.meta with
    | MetaFile.valid m =>
        infixOf (lowerChars title.data) (lowerChars m.visibleName.data)
    | _ => false)).map DeviceDoc.uuid

/-- A concrete stored document titled "notes". -/
def doc_notes : DeviceDoc :=
  { uuid := 7, ext := "pdf", has_data := true,
    meta := MetaFile.valid
      { parent := "", docType := "DocumentType", visibleName := "notes" },
    content := some "pdf" }

/-- A concrete stored document titled "farm diary entry". -/
def doc_farm : DeviceDoc :=
  { uuid := 3, ext := "pdf", has_data := true,
    meta := MetaFile.valid
      { parent := "", docType := "DocumentType",
        visibleName := "farm diary entry" },
    content := some "pdf" }

/-- C5 fails as stated: hash_from_title greps the whole serialized metadata
record, not only the titles: the query "DocumentType" matches the type field
of a document titled "notes" and returns its UUID, while the claimed
substring search over the stored titles finds nothing. -/
theorem c5_find_by_title_counterexample :
    ((hash_from_title (fun _ => true) "DocumentType" { docs := [doc_notes] }).1
      = some 7)
  ∧ (find_by_title_spec "DocumentType" [doc_notes] = none) := by
  exact ⟨by decide, by decide⟩

/-- Under a successful command and a non-blank title, hash_from_title
returns the first metadata match in listing order. -/
theorem hash_from_title_ok (sched : Nat → Bool) (t : String) (d : Device)
    (hs : sched d.op_index = true) (ht : strTrim t ≠ "") :
    hash_from_title sched t d =
      ((d.docs.find? (fun doc => meta_matches t doc.meta)).map DeviceDoc.uuid,
        { d with op_index := d.op_index + 1 }) := by
  cases hfind : d.docs.find? (fun doc => meta_matches t doc.meta) <;>
    simp [hash_from_title, step, ht, hs, hfind]

/-- C5 amended: hash_from_title returns not-found for every title whose strip
is empty; for a non-blank title (with the remote command succeeding) it
returns the UUID of the first document in listing order whose serialized
metadata record contains the title case-insensitively, without failing even
when several documents match; any document whose TITLE contains the query
case-insensitively is such a match (the Farm Diary scenario). -/
theorem c5_find_by_title_amended (sched : Nat → Bool) (t : String)
    (d : Device) :
    (strTrim t = "" → hash_from_title sched t d = (none, d))
  ∧ (sched d.op_index = true → strTrim t ≠ "" →
      (hash_from_title sched t d).1 =
        (d.docs.find? (fun doc => meta_matches t doc.meta)).map DeviceDoc.uuid)
  ∧ (∀ m : Metadata,
      infixOf (lowerChars t.data) (lowerChars m.visibleName.data) = true →
      meta_matches t (MetaFile.valid m) = true) := by
  refine ⟨?_, ?_, ?_⟩
  · intro h
    simp [hash_from_title, h]
  · intro hs ht
    rw [hash_from_title_ok sched t d hs ht]
  · intro m hm
    simp only [meta_matches, metaChars, lowerChars, List.map_append]
    apply infixOf_append_right
    apply infixOf_append_left
    simpa [lowerChars] using hm

/-- Witness for C5 amended: querying "Farm Diary" against a store holding a
document titled "farm diary entry" returns that document's UUID. -/
theorem c5_find_by_title_amended_witness :
    (hash_from_title (fun _ => true) "Farm Diary" { docs := [doc_farm] }).1
      = some 3 := by
  rw [(c5_find_by_title_amended (fun _ => true) "Farm Diary"
    { docs := [doc_farm] }).2.1 rfl (by decide)]
  decide

/-- C9: for a document whose metadata record is readable and parseable (and a
non-blank new title, with the read and write commands succeeding),
rename_document succeeds and replaces only that document's metadata record
with one whose visibleName is the stripped new title — parent and type are
carried over unchanged, and every content and file artifact of every
document, and every other document, is untouched; when the metadata file is
absent (read fails) or not parseable JSON, it returns failure and writes
nothing. -/
theorem c9_rename_document (sched : Nat → Bool) (u : Nat)
    (new_title : String) (d : Device) (m : Metadata) :
    (sched d.op_index = true → sched (d.op_index + 1) = true →
      strTrim new_title ≠ "" →
      meta_of d u = MetaFile.valid m →
      rename_document sched u new_title d =
        (true,
          { d with
            op_index := d.op_index + 1 + 1 + 1,
            docs := d.docs.map (fun doc =>
              if doc.uuid == u then
                { doc with
                  meta := MetaFile.valid { m with visibleName := strTrim new_title } }
              else doc) }))
  ∧ (strTrim new_title ≠ "" → sched d.op_index = true →
      (meta_of d u = MetaFile.absent ∨
        (∃ raw, meta_of d u = MetaFile.garbage raw)) →
      (rename_document sched u new_title d).1 = false ∧
      (rename_document sched u new_title d).2.docs = d.docs) := by
  have hsame : meta_of { d with op_index := d.op_index + 1 } u = meta_of d u := rfl
  constructor
  · intro h0 h1 ht hm
    simp [rename_document, step, ht, h0, h1, hsame, hm]
  · intro ht h0 hbad
    rcases hbad with hb | ⟨raw, hb⟩ <;>
      simp [rename_document, step, ht, h0, hsame, hb]

/-- A concrete stored document titled "old name". -/
def doc_old : DeviceDoc :=
  { uuid := 5, ext := "pdf", has_data := true,
    meta := MetaFile.valid
      { parent := "", docType := "DocumentType", visibleName := "old name" },
    content := some "pdf" }

/-- Witness for C9: renaming the stored document to " New " rewrites only its
visibleName, to the stripped "New". -/
theorem c9_rename_document_witness :
    rename_document (fun _ => true) 5 " New " { docs := [doc_old] } =
      (true,
        { docs := [{ doc_old with
            meta := MetaFile.valid
              { parent := "", docType := "DocumentType", visibleName := "New" } }],
          next_uuid := 0, op_index := 3 }) := by
  have h := (c9_rename_document (fun _ => true) 5 " New " { docs := [doc_old] }
    { parent := "", docType := "DocumentType", visibleName := "old name" }).1
    rfl rfl (by decide) (by decide)
  rw [h]
  decide

/-- The complete artifact triple the creation workflow writes for a title. -/
def new_doc (ext t : String) (u : Nat) : DeviceDoc :=
  { uuid := u, ext := ext, has_data := true,
    meta := MetaFile.valid
      { parent := "", docType := "DocumentType", visibleName := t },
    content := some ext }

/-- Under an all-success schedule the creation workflow appends exactly the
full artifact triple and returns the fresh UUID. -/
theorem create_document_ok (sched : Nat → Bool) (ext t : String) (d : Device)
    (h0 : sched d.op_index = true) (h1 : sched (d.op_index + 1) = true)
    (h2 : sched (d.op_index + 1 + 1) = true) :
    create_document sched ext t d =
      (some d.next_uuid,
        { docs := d.docs ++ [new_doc ext t d.next_uuid],
          next_uuid := d.next_uuid + 1,
          op_index := d.op_index + 1 + 1 + 1 + 1 }) := by
  simp [create_document, step, new_doc, h0, h1, h2]

/-- find? skips a block with no matches. -/
theorem find?_append_of_none {α : Type} (p : α → Bool) (l1 l2 : List α)
    (h : List.find? p l1 = none) :
    List.find? p (l1 ++ l2) = List.find? p l2 := by
  induction l1 with
  | nil => rfl
  | cons a l ih =>
    cases hp : p a with
    | true =>
      rw [List.find?_cons_of_pos _ hp] at h
      exact absurd h (by simp)
    | false =>
      rw [List.find?_cons_of_neg _ (by simp [hp])] at h
      rw [List.cons_append, List.find?_cons_of_neg _ (by simp [hp])]
      exact ih h

/-- C2 fails as stated: with the empty title (whose strip is empty) and a
PDF file, hash_from_title fails fast on both calls, so each of the two
successive add_with_metadata_if_new calls runs the creation workflow: they
return two different UUIDs and leave two documents with the same title. -/
theorem c2_idempotent_counterexample :
    ((add_with_metadata_if_new (fun _ => true)
        { present := true, suffix := ".pdf", stem := "x" } (some "") {}).1
      = some 0)
  ∧ ((add_with_metadata_if_new (fun _ => true)
        { present := true, suffix := ".pdf", stem := "x" } (some "")
        (add_with_metadata_if_new (fun _ => true)
          { present := true, suffix := ".pdf", stem := "x" } (some "") {}).2).1
      = some 1)
  ∧ ((add_with_metadata_if_new (fun _ => true)
        { present := true, suffix := ".pdf", stem := "x" } (some "")
        (add_with_metadata_if_new (fun _ => true)
          { present := true, suffix := ".pdf", stem := "x" } (some "") {}).2).2.docs.length
      = 2) := by
  exact ⟨by decide, by decide, by decide⟩

/-- C2 amended: for every title whose stripped form is non-empty (including
the default file-stem title), under a schedule where every remote operation
succeeds, two successive add_with_metadata_if_new calls with the same title
and file return the same result, the second call leaves the document store
unchanged — so the creation workflow runs at most once — and the first call
adds at most one document to the store. -/
theorem c2_idempotent_add_amended (sched : Nat → Bool) (f : LocalFile)
    (title : Option String) (d : Device)
    (hsched : ∀ n, sched n = true)
    (ht : strTrim (title.getD f.stem) ≠ "") :
    ((add_with_metadata_if_new sched f title
        (add_with_metadata_if_new sched f title d).2).1 =
      (add_with_metadata_if_new sched f title d).1)
  ∧ ((add_with_metadata_if_new sched f title
        (add_with_metadata_if_new sched f title d).2).2.docs =
      (add_with_metadata_if_new sched f title d).2.docs)
  ∧ ((add_with_metadata_if_new sched f title d).2.docs.length ≤
      d.docs.length + 1) := by
  rcases hfind : d.docs.find?
      (fun dd => meta_matches (title.getD f.stem) dd.meta) with _ | doc
  · -- nothing on the device matches the title yet
    have ehash : hash_from_title sched (title.getD f.stem) d =
        (none, { d with op_index := d.op_index + 1 }) := by
      have e := hash_from_title_ok sched (title.getD f.stem) d (hsched _) ht
      rw [hfind] at e
      simpa using e
    by_cases hpdf : lowerStr f.suffix = ".pdf"
    · cases hpres : f.present with
      | false =>
        have e1 : add_with_metadata_if_new sched f title d =
            (none, { d with op_index := d.op_index + 1 }) := by
          simp only [add_with_metadata_if_new]
          rw [ehash]
          simp [add_pdf_with_metadata, hpdf, hpres]
        have hfind2 : ({ d with op_index := d.op_index + 1 } : Device).docs.find?
            (fun dd => meta_matches (title.getD f.stem) dd.meta) = none := hfind
        have ehash2 : hash_from_title sched (title.getD f.stem)
            { d with op_index := d.op_index + 1 } =
            (none, { d with op_index := d.op_index + 1 + 1 }) := by
          have e := hash_from_title_ok sched (title.getD f.stem)
            { d with op_index := d.op_index + 1 } (hsched _) ht
          rw [hfind2] at e
          simpa using e
        have e2 : add_with_metadata_if_new sched f title
            { d with op_index := d.op_index + 1 } =
            (none, { d with op_index := d.op_index + 1 + 1 }) := by
          simp only [add_with_metadata_if_new]
          rw [ehash2]
          simp [add_pdf_with_metadata, hpdf, hpres]
        refine ⟨?_, ?_, ?_⟩ <;> simp only [e1, e2]
        exact Nat.le_succ _
      | true =>
        have ecreate := create_document_ok sched "pdf" (title.getD f.stem)
          { d with op_index := d.op_index + 1 } (hsched _) (hsched _) (hsched _)
        have e1 : add_with_metadata_if_new sched f title d =
            (some d.next_uuid,
              { docs := d.docs ++ [new_doc "pdf" (title.getD f.stem) d.next_uuid],
                next_uuid := d.next_uuid + 1,
                op_index := d.op_index + 1 + 1 + 1 + 1 + 1 }) := by
          simp only [add_with_metadata_if_new]
          rw [ehash]
          simp only [add_pdf_with_metadata, hpdf, hpres, if_neg, if_pos]
          simpa using ecreate
        have hfind2 : (d.docs ++
            [new_doc "pdf" (title.getD f.stem) d.next_uuid]).find?
            (fun dd => meta_matches (title.getD f.stem) dd.meta) =
            some (new_doc "pdf" (title.getD f.stem) d.next_uuid) := by
          rw [find?_append_of_none _ _ _ hfind]
          exact List.find?_cons_of_pos _ (meta_matches_created (title.getD f.stem))
        have ehash2 : hash_from_title sched (title.getD f.stem)
            { docs := d.docs ++ [new_doc "pdf" (title.getD f.stem) d.next_uuid],
              next_uuid := d.next_uuid + 1,
              op_index := d.op_index + 1 + 1 + 1 + 1 + 1 } =
            (some d.next_uuid,
              { docs := d.docs ++ [new_doc "pdf" (title.getD f.stem) d.next_uuid],
                next_uuid := d.next_uuid + 1,
                op_index := d.op_index + 1 + 1 + 1 + 1 + 1 + 1 }) := by
          have e := hash_from_title_ok sched (title.getD f.stem)
            { docs := d.docs ++ [new_doc "pdf" (title.getD f.stem) d.next_uuid],
              next_uuid := d.next_uuid + 1,
              op_index := d.op_index + 1 + 1 + 1 + 1 + 1 } (hsched _) ht
          simp only [hfind2] at e
          simpa [new_doc] using e
        have e2 : add_with_metadata_if_new sched f title
            { docs := d.docs ++ [new_doc "pdf" (title.getD f.stem) d.next_uuid],
              next_uuid := d.next_uuid + 1,
              op_index := d.op_index + 1 + 1 + 1 + 1 + 1 } =
            (some d.next_uuid,
              { docs := d.docs ++ [new_doc "pdf" (title.getD f.stem) d.next_uuid],
                next_uuid := d.next_uuid + 1,
                op_index := d.op_index + 1 + 1 + 1 + 1 + 1 + 1 }) := by
          simp only [add_with_metadata_if_new]
          rw [ehash2]
        refine ⟨?_, ?_, ?_⟩ <;> simp only [e1, e2] <;> simp
    · by_cases hepub : lowerStr f.suffix = ".epub"
      · cases hpres : f.present with
        | false =>
          have e1 : add_with_metadata_if_new sched f title d =
              (none, { d with op_index := d.op_index + 1 }) := by
            simp only [add_with_metadata_if_new]
            rw [ehash]
            simp [add_epub_with_metadata, hpdf, hepub, hpres]
          have hfind2 : ({ d with op_index := d.op_index + 1 } : Device).docs.find?
              (fun dd => meta_matches (title.getD f.stem) dd.meta) = none := hfind
          have ehash2 : hash_from_title sched (title.getD f.stem)
              { d with op_index := d.op_index + 1 } =
              (none, { d with op_index := d.op_index + 1 + 1 }) := by
            have e := hash_from_title_ok sched (title.getD f.stem)
              { d with op_index := d.op_index + 1 } (hsched _) ht
            rw [hfind2] at e
            simpa using e
          have e2 : add_with_metadata_if_new sched f title
              { d with op_index := d.op_index + 1 } =
              (none, { d with op_index := d.op_index + 1 + 1 }) := by
            simp only [add_with_metadata_if_new]
            rw [ehash2]
            simp [add_epub_with_metadata, hpdf, hepub, hpres]
          refine ⟨?_, ?_, ?_⟩ <;> simp only [e1, e2]
          exact Nat.le_succ _
        | true =>
          have ecreate := create_document_ok sched "epub" (title.getD f.stem)
            { d with op_index := d.op_index + 1 } (hsched _) (hsched _) (hsched _)
          have e1 : add_with_metadata_if_new sched f title d =
              (some d.next_uuid,
                { docs := d.docs ++ [new_doc "epub" (title.getD f.stem) d.next_uuid],
                  next_uuid := d.next_uuid + 1,
                  op_index := d.op_index + 1 + 1 + 1 + 1 + 1 }) := by
            simp only [add_with_metadata_if_new]
            rw [ehash]
            simp only [add_epub_with_metadata, hpdf, hepub, hpres, if_neg, if_pos]
            simpa using ecreate
          have hfind2 : (d.docs ++
              [new_doc "epub" (title.getD f.stem) d.next_uuid]).find?
              (fun dd => meta_matches (title.getD f.stem) dd.meta) =
              some (new_doc "epub" (title.getD f.stem) d.next_uuid) := by
            rw [find?_append_of_none _ _ _ hfind]
            exact List.find?_cons_of_pos _ (meta_matches_created (title.getD f.stem))
          have ehash2 : hash_from_title sched (title.getD f.stem)
              { docs := d.docs ++ [new_doc "epub" (title.getD f.stem) d.next_uuid],
                next_uuid := d.next_uuid + 1,
                op_index := d.op_index + 1 + 1 + 1 + 1 + 1 } =
              (some d.next_uuid,
                { docs := d.docs ++ [new_doc "epub" (title.getD f.stem) d.next_uuid],
                  next_uuid := d.next_uuid + 1,
                  op_index := d.op_index + 1 + 1 + 1 + 1 + 1 + 1 }) := by
            have e := hash_from_title_ok sched (title.getD f.stem)
              { docs := d.docs ++ [new_doc "epub" (title.getD f.stem) d.next_uuid],
                next_uuid := d.next_uuid + 1,
                op_index := d.op_index + 1 + 1 + 1 + 1 + 1 } (hsched _) ht
            simp only [hfind2] at e
            simpa [new_doc] using e
          have e2 : add_with_metadata_if_new sched f title
              { docs := d.docs ++ [new_doc "epub" (title.getD f.stem) d.next_uuid],
                next_uuid := d.next_uuid + 1,
                op_index := d.op_index + 1 + 1 + 1 + 1 + 1 } =
              (some d.next_uuid,
                { docs := d.docs ++ [new_doc "epub" (title.getD f.stem) d.next_uuid],
                  next_uuid := d.next_uuid + 1,
                  op_index := d.op_index + 1 + 1 + 1 + 1 + 1 + 1 }) := by
            simp only [add_with_metadata_if_new]
            rw [ehash2]
          refine ⟨?_, ?_, ?_⟩ <;> simp only [e1, e2] <;> simp
      · have e1 : add_with_metadata_if_new sched f title d =
            (none, { d with op_index := d.op_index + 1 }) := by
          simp only [add_with_metadata_if_new]
          rw [ehash]
          simp [hpdf, hepub]
        have hfind2 : ({ d with op_index := d.op_index + 1 } : Device).docs.find?
            (fun dd => meta_matches (title.getD f.stem) dd.meta) = none := hfind
        have ehash2 : hash_from_title sched (title.getD f.stem)
            { d with op_index := d.op_index + 1 } =
            (none, { d with op_index := d.op_index + 1 + 1 }) := by
          have e := hash_from_title_ok sched (title.getD f.stem)
            { d with op_index := d.op_index + 1 } (hsched _) ht
          rw [hfind2] at e
          simpa using e
        have e2 : add_with_metadata_if_new sched f title
            { d with op_index := d.op_index + 1 } =
            (none, { d with op_index := d.op_index + 1 + 1 }) := by
          simp only [add_with_metadata_if_new]
          rw [ehash2]
          simp [hpdf, hepub]
        refine ⟨?_, ?_, ?_⟩ <;> simp only [e1, e2]
        exact Nat.le_succ _
  · -- a document already matches the title: both calls return its UUID
    have e1 : add_with_metadata_if_new sched f title d =
        (some doc.uuid, { d with op_index := d.op_index + 1 }) := by
      have e := hash_from_title_ok sched (title.getD f.stem) d (hsched _) ht
      rw [hfind] at e
      simp only [add_with_metadata_if_new]
      rw [e]
      simp
    have hfind2 : ({ d with op_index := d.op_index + 1 } : Device).docs.find?
        (fun dd => meta_matches (title.getD f.stem) dd.meta) = some doc := hfind
    have e2 : add_with_metadata_if_new sched f title
        { d with op_index := d.op_index + 1 } =
        (some doc.uuid, { d with op_index := d.op_index + 1 + 1 }) := by
      have e := hash_from_title_ok sched (title.getD f.stem)
        { d with op_index := d.op_index + 1 } (hsched _) ht
      rw [hfind2] at e
      simp only [add_with_metadata_if_new]
      rw [e]
      simp
    refine ⟨?_, ?_, ?_⟩ <;> simp only [e1, e2]
    exact Nat.le_succ _

/-- Witness for C2 amended: adding "Report" twice to an empty device returns
UUID 0 both times and stores exactly one document. -/
theorem c2_idempotent_add_amended_witness :
    ((add_with_metadata_if_new (fun _ => true)
        { present := true, suffix := ".pdf", stem := "x" } (some "Report")
        (add_with_metadata_if_new (fun _ => true)
          { present := true, suffix := ".pdf", stem := "x" } (some "Report") {}).2).1 =
      (add_with_metadata_if_new (fun _ => true)
        { present := true, suffix := ".pdf", stem := "x" } (some "Report") {}).1)
  ∧ ((add_with_metadata_if_new (fun _ => true)
        { present := true, suffix := ".pdf", stem := "x" } (some "Report") {}).2.docs.length ≤
      1) := by
  have h := c2_idempotent_add_amended (fun _ => true)
    { present := true, suffix := ".pdf", stem := "x" } (some "Report") {}
    (fun _ => rfl) (by decide)
  exact ⟨h.1, h.2.2⟩

end Readmarkable
